import Mathlib

/-!
Verification of the RSK reverse SOCKS5 proxy (tbxark/rsk).

This file gives a shallow embedding of the parts of the Go source that the
claims C1-C10 are about, and proves or refutes each claim:

* the wire codec of `pkg/rsk/proto/messages.go` (HELLO, HELLO_RESP,
  CONNECT_REQ), with bytes modelled as natural numbers below 256 in a
  `List Nat`;
* the port registry of `pkg/rsk/server/registry.go` (reservation, binding,
  release, per-port connection counters);
* the per-IP authentication rate limiter of `pkg/rsk/server/socks.go`;
* the client-side address filter of `pkg/rsk/client/config.go`;
* the constant-time token comparison of `pkg/rsk/common/utils.go`
  (Go's `crypto/subtle.ConstantTimeCompare`), instrumented with a loop
  iteration count;
* the client's handshake-error classification in `pkg/rsk/client/client.go`
  (`Client.Run`).

Machine integers are modelled as `Nat` (bytes, ports, counts) or `Int`
(the `int32` connection counters, time instants); maps guarded by the
registry or rate-limiter mutex are modelled as functions into `Option`,
and every operation that runs under the mutex becomes an atomic step of a
state-transition function, so an arbitrary interleaving of operations is
an arbitrary sequence of steps.
-/

namespace RSK

/-! ## Wire codec (`pkg/rsk/proto/messages.go`) -/

/-- Typed errors of the codec, one per `errors.New` in `messages.go`, plus
`eof` for the I/O errors surfaced by `io.ReadFull` / `binary.Read`. -/
inductive ProtoErr where
  | invalidMagic
  | invalidVersion
  | invalidTokenLen
  | invalidPortCount
  | invalidNameLen
  | messageTooLarge
  | invalidAcceptedPortCount
  | invalidMessageLen
  | invalidAddrLen
  | eof
deriving DecidableEq, Repr

/-- The bytes of `MagicValue = "RSK1"`. -/
def magicBytes : List Nat := [82, 83, 75, 49]

/-- `Version = 0x01`. -/
def versionByte : Nat := 1

/-- The HELLO message (`proto.Hello`); `Magic [4]byte` becomes a 4-byte
list, `Token []byte` and `Name string` become byte lists, `Ports []uint16`
becomes a list of naturals below 65536. -/
structure Hello where
  magic : List Nat
  version : Nat
  token : List Nat
  ports : List Nat
  name : List Nat
deriving DecidableEq, Repr

/-- Big-endian 2-byte encoding of each port, as emitted by the
`binary.Write(w, binary.BigEndian, port)` loop. -/
def encPorts : List Nat → List Nat
  | [] => []
  | p :: ps => p / 256 :: p % 256 :: encPorts ps

/-- `WriteHello`: validate all bounds, then emit
magic, version, token length, token, port count, ports, name length, name.
On any bounds violation the corresponding error is returned and no bytes
are produced. -/
def WriteHello (h : Hello) : Except ProtoErr (List Nat) :=
  if h.magic ≠ magicBytes then .error .invalidMagic
  else if h.version ≠ versionByte then .error .invalidVersion
  else if h.token.length < 1 ∨ 255 < h.token.length then .error .invalidTokenLen
  else if h.ports.length < 1 ∨ 16 < h.ports.length then .error .invalidPortCount
  else if 64 < h.name.length then .error .invalidNameLen
  else if 2048 < 4 + 1 + 1 + h.token.length + 1 + h.ports.length * 2 + 1 + h.name.length then
    .error .messageTooLarge
  else .ok (h.magic ++ h.version :: h.token.length ::
      (h.token ++ h.ports.length :: (encPorts h.ports ++ h.name.length :: h.name)))

/-- Read one byte (`binary.Read` of a `uint8`). -/
def readByte : List Nat → Except ProtoErr (Nat × List Nat)
  | [] => .error .eof
  | b :: bs => .ok (b, bs)

/-- Read exactly `n` bytes (`io.ReadFull` into a buffer of length `n`). -/
def readBytes : Nat → List Nat → Except ProtoErr (List Nat × List Nat)
  | 0, bs => .ok ([], bs)
  | _ + 1, [] => .error .eof
  | n + 1, b :: bs =>
    match readBytes n bs with
    | .ok (xs, rest) => .ok (b :: xs, rest)
    | .error e => .error e

/-- Read a big-endian `uint16`. -/
def readU16 : List Nat → Except ProtoErr (Nat × List Nat)
  | hi :: lo :: bs => .ok (hi * 256 + lo, bs)
  | _ => .error .eof

/-- Read `n` big-endian `uint16` ports (the `binary.Read` loop). -/
def readPorts : Nat → List Nat → Except ProtoErr (List Nat × List Nat)
  | 0, bs => .ok ([], bs)
  | n + 1, bs =>
    match readU16 bs with
    | .error e => .error e
    | .ok (p, rest) =>
      match readPorts n rest with
      | .error e => .error e
      | .ok (ps, rest2) => .ok (p :: ps, rest2)

/-- `ReadHello`: field-by-field decoding with the same strict bound checks
as the Go reader. -/
def ReadHello (input : List Nat) : Except ProtoErr (Hello × List Nat) :=
  match readBytes 4 input with
  | .error e => .error e
  | .ok (magic, r1) =>
    if magic ≠ magicBytes then .error .invalidMagic
    else match readByte r1 with
    | .error e => .error e
    | .ok (ver, r2) =>
      if ver ≠ versionByte then .error .invalidVersion
      else match readByte r2 with
      | .error e => .error e
      | .ok (tlen, r3) =>
        if tlen < 1 ∨ 255 < tlen then .error .invalidTokenLen
        else match readBytes tlen r3 with
        | .error e => .error e
        | .ok (token, r4) =>
          match readByte r4 with
          | .error e => .error e
          | .ok (pcnt, r5) =>
            if pcnt < 1 ∨ 16 < pcnt then .error .invalidPortCount
            else match readPorts pcnt r5 with
            | .error e => .error e
            | .ok (ports, r6) =>
              match readByte r6 with
              | .error e => .error e
              | .ok (nlen, r7) =>
                if 64 < nlen then .error .invalidNameLen
                else match readBytes nlen r7 with
                | .error e => .error e
                | .ok (name, r8) => .ok (⟨magic, ver, token, ports, name⟩, r8)

/-- The HELLO_RESP message (`proto.HelloResp`). -/
structure HelloResp where
  version : Nat
  status : Nat
  acceptedPorts : List Nat
  message : List Nat
deriving DecidableEq, Repr

/-- `WriteHelloResp`: validate bounds, then emit version, status,
accepted-port count, ports, message length, message. -/
def WriteHelloResp (h : HelloResp) : Except ProtoErr (List Nat) :=
  if h.version ≠ versionByte then .error .invalidVersion
  else if 16 < h.acceptedPorts.length then .error .invalidAcceptedPortCount
  else if 255 < h.message.length then .error .invalidMessageLen
  else .ok (h.version :: h.status :: h.acceptedPorts.length ::
      (encPorts h.acceptedPorts ++ h.message.length :: h.message))

/-- `ReadHelloResp`: field-by-field decoding with strict bound checks. -/
def ReadHelloResp (input : List Nat) : Except ProtoErr (HelloResp × List Nat) :=
  match readByte input with
  | .error e => .error e
  | .ok (ver, r1) =>
    if ver ≠ versionByte then .error .invalidVersion
    else match readByte r1 with
    | .error e => .error e
    | .ok (status, r2) =>
      match readByte r2 with
      | .error e => .error e
      | .ok (acnt, r3) =>
        if 16 < acnt then .error .invalidAcceptedPortCount
        else match readPorts acnt r3 with
        | .error e => .error e
        | .ok (ports, r4) =>
          match readByte r4 with
          | .error e => .error e
          | .ok (mlen, r5) =>
            if 255 < mlen then .error .invalidMessageLen
            else match readBytes mlen r5 with
            | .error e => .error e
            | .ok (msg, r6) => .ok (⟨ver, status, ports, msg⟩, r6)

/-- `WriteConnectReq`: validate the address length (1-1024), then emit the
2-byte big-endian length followed by the address bytes. -/
def WriteConnectReq (addr : List Nat) : Except ProtoErr (List Nat) :=
  if addr.length < 1 ∨ 1024 < addr.length then .error .invalidAddrLen
  else .ok (addr.length / 256 :: addr.length % 256 :: addr)

/-- `ReadConnectReq`: read the 2-byte length, check bounds, read the
address bytes. -/
def ReadConnectReq (input : List Nat) : Except ProtoErr (List Nat × List Nat) :=
  match readU16 input with
  | .error e => .error e
  | .ok (alen, r1) =>
    if alen < 1 ∨ 1024 < alen then .error .invalidAddrLen
    else match readBytes alen r1 with
    | .error e => .error e
    | .ok (a, r2) => .ok (a, r2)

/-! ## Port registry (`pkg/rsk/server/registry.go`)

The registry map `slots map[int]*ClientSlot` guarded by `sync.RWMutex`
becomes a function `Nat → Option ClientSlot`; each registry method is one
atomic step (in the source every mutation runs under the mutex, and the
per-slot `activeConns` CAS loop of `IncrementConnections` is equivalent to
one atomic conditional increment).  The `stopOnce` latch body of
`ReleasePorts` (close the listener if non-nil, run `stopFunc` if non-nil)
is instrumented with per-port counters `listenerCloses` / `stopFuncRuns`
that record how many times each side effect actually executed, and the
`released` flag captured by the closure returned from `ReservePorts` is
recorded in `cloReleased`, indexed by an identifier of the closure. -/

/-- `server.ClientSlot`.  Pointers (`*yamux.Session`, `net.Listener`,
`stopFunc`) become `Option Nat` handles / a presence flag. -/
structure ClientSlot where
  port : Nat
  clientName : String
  clientID : String
  session : Option Nat
  socksListener : Option Nat
  activeConns : Int
  maxConns : Int
  hasStopFunc : Bool
deriving DecidableEq, Repr

/-- `server.Registry`, with the side-effect instrumentation described
above. -/
structure Registry where
  slots : Nat → Option ClientSlot
  listenerCloses : Nat → Nat
  stopFuncRuns : Nat → Nat
  cloReleased : Nat → Bool

/-- Point update of the slot map (`r.slots[port] = slot`). -/
def setSlot (reg : Registry) (p : Nat) (s : ClientSlot) : Registry :=
  { reg with slots := fun q => if q = p then some s else reg.slots q }

/-- The placeholder slot `&ClientSlot{port: port}` inserted by
`ReservePorts` (all other fields at their Go zero values). -/
def emptySlot (p : Nat) : ClientSlot :=
  { port := p, clientName := "", clientID := "", session := none,
    socksListener := none, activeConns := 0, maxConns := 0, hasStopFunc := false }

/-- `server.PortInUseError`. -/
structure PortInUseError where
  Port : Nat
deriving DecidableEq, Repr

/-- `server.PortNotReservedError`. -/
structure PortNotReservedError where
  Port : Nat
deriving DecidableEq, Repr

/-- `server.ClientMeta`. -/
structure ClientMeta where
  ClientName : String
  ClientID : String
deriving DecidableEq, Repr

/-- The first check loop of `ReservePorts`: scan the requested ports in
order and return the first one already present. -/
def findConflict (reg : Registry) : List Nat → Option Nat
  | [] => none
  | p :: ps => if (reg.slots p).isSome then some p else findConflict reg ps

/-- The second loop of `ReservePorts`: insert a placeholder slot for each
requested port. -/
def insertPlaceholders (reg : Registry) : List Nat → Registry
  | [] => reg
  | p :: ps => insertPlaceholders (setSlot reg p (emptySlot p)) ps

/-- `Registry.ReservePorts`: under one critical section, check every
requested port, and only if none is present insert the placeholders.  On a
collision the map is returned untouched together with the error. -/
def ReservePorts (reg : Registry) (ports : List Nat) : Registry × Option PortInUseError :=
  match findConflict reg ports with
  | some p => (reg, some ⟨p⟩)
  | none => (insertPlaceholders reg ports, none)

/-- The body of the `releaseFunc` closure returned by `ReservePorts`: if
its captured `released` flag (recorded at index `i`) is set, do nothing;
otherwise set it and delete exactly the captured ports. -/
def releaseFuncRun (reg : Registry) (i : Nat) (ports : List Nat) : Registry :=
  if reg.cloReleased i then reg
  else { reg with
         cloReleased := fun j => if j = i then true else reg.cloReleased j,
         slots := fun q => if q ∈ ports then none else reg.slots q }

/-- `Registry.BindSession`: fail with `PortNotReservedError` iff the slot
is absent; otherwise overwrite session, listener, client metadata and
`maxConns`, and reset `activeConns` to 0. -/
def BindSession (reg : Registry) (p : Nat) (sess : Option Nat)
    (listener : Option Nat) (meta : ClientMeta) (maxConns : Int) :
    Registry × Option PortNotReservedError :=
  match reg.slots p with
  | none => (reg, some ⟨p⟩)
  | some slot =>
    (setSlot reg p { slot with
        session := sess, socksListener := listener,
        clientName := meta.ClientName, clientID := meta.ClientID,
        maxConns := maxConns, activeConns := 0 }, none)

/-- One iteration of the `ReleasePorts` loop: if the port is present, run
the `stopOnce` body (recorded in the instrumentation counters) and delete
the slot. -/
def releaseSlot (reg : Registry) (p : Nat) : Registry :=
  match reg.slots p with
  | none => reg
  | some slot =>
    { reg with
      slots := fun q => if q = p then none else reg.slots q,
      listenerCloses := fun q =>
        if q = p then
          (if slot.socksListener.isSome then reg.listenerCloses q + 1 else reg.listenerCloses q)
        else reg.listenerCloses q,
      stopFuncRuns := fun q =>
        if q = p then
          (if slot.hasStopFunc then reg.stopFuncRuns q + 1 else reg.stopFuncRuns q)
        else reg.stopFuncRuns q }

/-- `Registry.ReleasePorts`: release each requested port in order. -/
def ReleasePorts (reg : Registry) (ports : List Nat) : Registry :=
  ports.foldl releaseSlot reg

/-- `Registry.IncrementConnections`: refuse when the slot is absent or the
counter has reached `maxConns` (the CAS loop `current >= slot.maxConns`);
otherwise increment. -/
def IncrementConnections (reg : Registry) (p : Nat) : Bool × Registry :=
  match reg.slots p with
  | none => (false, reg)
  | some slot =>
    if slot.maxConns ≤ slot.activeConns then (false, reg)
    else (true, setSlot reg p { slot with activeConns := slot.activeConns + 1 })

/-- `Registry.DecrementConnections`: unconditional atomic add of `-1` when
the slot is present. -/
def DecrementConnections (reg : Registry) (p : Nat) : Registry :=
  match reg.slots p with
  | none => reg
  | some slot => setSlot reg p { slot with activeConns := slot.activeConns - 1 }

/-- `Registry.GetConnectionCount`. -/
def GetConnectionCount (reg : Registry) (p : Nat) : Int :=
  match reg.slots p with
  | none => 0
  | some slot => slot.activeConns

/-- A data-plane counter operation on one port: an `IncrementConnections`
call or a `DecrementConnections` call. -/
inductive CountOp where
  | inc
  | dec
deriving DecidableEq, Repr

/-- Execute a sequence of counter operations on port `p` (each call is one
atomic step; the result of an increment call is discarded here). -/
def runOps (reg : Registry) (p : Nat) : List CountOp → Registry
  | [] => reg
  | CountOp.inc :: rest => runOps (IncrementConnections reg p).2 p rest
  | CountOp.dec :: rest => runOps (DecrementConnections reg p) p rest

/-- Well-formed traces: `credit` counts successful increments not yet
matched by a decrement, and every decrement must be preceded by a distinct
unmatched successful increment (`credit ≠ 0`). -/
def okTrace (reg : Registry) (p : Nat) (credit : Nat) : List CountOp → Bool
  | [] => true
  | CountOp.inc :: rest =>
    okTrace (IncrementConnections reg p).2 p
      (if (IncrementConnections reg p).1 then credit + 1 else credit) rest
  | CountOp.dec :: rest =>
    credit ≠ 0 && okTrace (DecrementConnections reg p) p (credit - 1) rest

/-- A release-side operation: a `ReleasePorts` call with an arbitrary port
list, or an invocation of the release closure with identifier `id` (whose
captured port list is given by the environment `env`). -/
inductive RelOp where
  | rel (ports : List Nat)
  | clo (id : Nat)

/-- One atomic release-side step (both operations run under the registry
mutex in the source). -/
def stepRel (env : Nat → List Nat) (reg : Registry) : RelOp → Registry
  | .rel ps => ReleasePorts reg ps
  | .clo i => releaseFuncRun reg i (env i)

/-- Execute an arbitrary interleaving (sequence) of release operations. -/
def runRel (env : Nat → List Nat) (reg : Registry) (ops : List RelOp) : Registry :=
  ops.foldl (stepRel env) reg

/-- Invariant for C5: each cleanup side effect for port `p` has run at most
once, and it can only have run once the slot is gone. -/
def cleanupInv (reg : Registry) (p : Nat) : Prop :=
  (reg.listenerCloses p ≤ 1 ∧ reg.stopFuncRuns p ≤ 1) ∧
  ((reg.slots p).isSome = true → reg.listenerCloses p = 0 ∧ reg.stopFuncRuns p = 0)

/-- Modelled from the spec: the counting sub-stream wrapper
(`connCountingStream` in the repository's tests) returned by the SOCKS
manager's dialer; its `Close` must decrement the port's counter exactly
once.  The wrapper's connection-counting `Close` guard is not under
`src/` (only the tests in `unnamed/part_012` reference it), so it is
modelled from spec §4.6: `closed` is the write-once latch consulted by
`Close`. -/
structure CountingStream where
  port : Nat
  closed : Bool
deriving DecidableEq, Repr

/-- Errors of the counting dialer; `connectionLimit` corresponds to
`common.ErrConnectionLimit`. -/
inductive DialErr where
  | connectionLimit
  | openStreamFailed
  | writeReqFailed
deriving DecidableEq, Repr

/-- Error text, matching `errors.New("connection limit reached")` in
`pkg/rsk/common/errors.go`. -/
def dialErrMessage : DialErr → String
  | .connectionLimit => "connection limit reached"
  | .openStreamFailed => "failed to open stream"
  | .writeReqFailed => "failed to write CONNECT_REQ"

/-- Modelled from the spec: one invocation of the connection-counting
dialer returned by `SOCKSManager.createDialer(port, sess)`, which is not
under `src/` (the copy of `socks.go` under `src/` lacks the counting
steps; only the tests in `unnamed/part_012` exercise them).  Per spec
§4.6: (1) call `IncrementConnections(port)` and on refusal fail with the
"connection limit reached" error before any sub-stream exists; (2) open a
sub-stream (`openOk` models `sess.OpenStream` succeeding) and on failure
decrement and fail; (3) write the CONNECT_REQ (`writeOk`) and on failure
close the sub-stream (which decrements) and fail; (4) otherwise return the
wrapped stream.  The result is (outcome, registry after the call, number
of sub-streams opened during the call). -/
def createDialerRun (reg : Registry) (port : Nat) (openOk writeOk : Bool) :
    Except DialErr CountingStream × Registry × Nat :=
  let r := IncrementConnections reg port
  if r.1 = false then (.error .connectionLimit, reg, 0)
  else if openOk = false then (.error .openStreamFailed, DecrementConnections r.2 port, 0)
  else if writeOk = false then (.error .writeReqFailed, DecrementConnections r.2 port, 1)
  else (.ok ⟨port, false⟩, r.2, 1)

/-- Modelled from the spec: `Close` of the counting sub-stream — decrement
the port's counter on the first close only (the write-once latch). -/
def closeStream : Registry × CountingStream → Registry × CountingStream
  | (reg, s) =>
    if s.closed then (reg, s)
    else (DecrementConnections reg s.port, ⟨s.port, true⟩)

/-- Iterate `Close` `n` times (an arbitrary number of serialized close
callers; the latch makes every concurrent close linearize to this). -/
def closeIter (st : Registry × CountingStream) : Nat → Registry × CountingStream
  | 0 => st
  | n + 1 => closeIter (closeStream st) n

/-! ## Per-IP auth-failure rate limiter
(`IPRateLimiter` in `pkg/rsk/server/socks.go`)

Time instants are integers; the Go zero `time.Time` sentinel used by
`blockedAt` becomes `Option Int` (`none` = `IsZero`).  `time.Since(t)` at
instant `now` is `now - t`.  Every method runs under the limiter's mutex,
so each is one atomic step taking the current instant as a parameter. -/

/-- `ipLimiterEntry` (the `rate.Limiter` field is never consulted by the
blocking logic and is omitted). -/
structure IPEntry where
  failures : Nat
  blockedAt : Option Int
deriving DecidableEq, Repr

/-- `server.IPRateLimiter`. -/
structure IPRateLimiter where
  limiters : String → Option IPEntry
  maxFailures : Nat
  blockDuration : Int

/-- `IPRateLimiter.RecordFailure` at instant `now`: create the entry on
first failure, increment `failures`, and when the count reaches
`maxFailures` stamp `blockedAt := now` and report `true`. -/
def RecordFailure (rl : IPRateLimiter) (ip : String) (now : Int) : Bool × IPRateLimiter :=
  let entry := (rl.limiters ip).getD ⟨0, none⟩
  let bumped : IPEntry := ⟨entry.failures + 1, entry.blockedAt⟩
  if rl.maxFailures ≤ bumped.failures then
    (true, { rl with limiters := fun j =>
      if j = ip then some ⟨bumped.failures, some now⟩ else rl.limiters j })
  else
    (false, { rl with limiters := fun j =>
      if j = ip then some bumped else rl.limiters j })

/-- `IPRateLimiter.IsBlocked` at instant `now`: true iff the entry exists,
`blockedAt` is set, and less than `blockDuration` has elapsed. -/
def IsBlocked (rl : IPRateLimiter) (ip : String) (now : Int) : Bool :=
  match rl.limiters ip with
  | none => false
  | some e =>
    match e.blockedAt with
    | none => false
    | some t => decide (now - t < rl.blockDuration)

/-- `IPRateLimiter.Reset`: delete the entry. -/
def Reset (rl : IPRateLimiter) (ip : String) : IPRateLimiter :=
  { rl with limiters := fun j => if j = ip then none else rl.limiters j }

/-! ## Client address filter (`AddressFilter` in `pkg/rsk/client/config.go`)

An IP address is a 32-bit (IPv4) or 128-bit (IPv6) natural number.  The
category tests reproduce the Go standard library semantics used by the
filter: `IP.IsLoopback` (127.0.0.0/8, ::1), `IP.IsLinkLocalUnicast`
(169.254.0.0/16, fe80::/10), `IP.IsPrivate` (10.0.0.0/8, 172.16.0.0/12,
192.168.0.0/16, fc00::/7) and `IPNet.Contains` as prefix match.  Name
resolution (`net.LookupIP`) is external I/O; `IsAllowed` is modelled on
the IP the host parses or first resolves to. -/

/-- A parsed IP address. -/
inductive IPAddr where
  | v4 (a : Nat)
  | v6 (a : Nat)
deriving DecidableEq, Repr

/-- `ip.IsLoopback`: first octet 127 (IPv4) or `::1` (IPv6). -/
def isLoopback : IPAddr → Bool
  | .v4 a => a / 2 ^ 24 == 127
  | .v6 a => a == 1

/-- `ip.IsLinkLocalUnicast`: 169.254.0.0/16 (IPv4) or fe80::/10 (IPv6,
top ten bits `1111111010`). -/
def isLinkLocalUnicast : IPAddr → Bool
  | .v4 a => a / 2 ^ 16 == 169 * 256 + 254
  | .v6 a => a / 2 ^ 118 == 1018

/-- `ip.IsPrivate`: 10.0.0.0/8, 172.16.0.0/12, 192.168.0.0/16 (IPv4) or
fc00::/7 (IPv6, top seven bits `1111110`). -/
def isPrivateNetwork : IPAddr → Bool
  | .v4 a => a / 2 ^ 24 == 10 || a / 2 ^ 20 == 172 * 16 + 1 || a / 2 ^ 16 == 192 * 256 + 168
  | .v6 a => a / 2 ^ 121 == 126

/-- A parsed CIDR block (`*net.IPNet`). -/
structure CIDR where
  base : IPAddr
  prefixLen : Nat
deriving DecidableEq, Repr

/-- `IPNet.Contains`: the address agrees with the base on the prefix (an
address of the other family is not contained). -/
def cidrContains (c : CIDR) (ip : IPAddr) : Bool :=
  match c.base, ip with
  | .v4 b, .v4 a => a / 2 ^ (32 - c.prefixLen) == b / 2 ^ (32 - c.prefixLen)
  | .v6 b, .v6 a => a / 2 ^ (128 - c.prefixLen) == b / 2 ^ (128 - c.prefixLen)
  | _, _ => false

/-- `client.AddressFilter`. -/
structure AddressFilter where
  allowPrivate : Bool
  blockedNets : List CIDR

/-- The rejection categories of `AddressFilter.IsAllowed`, one per
`fmt.Errorf` message. -/
inductive FilterError where
  | loopback
  | linkLocal
  | privateNetwork
  | blockedNetwork
deriving DecidableEq, Repr

/-- The error text of each category. -/
def filterErrorMessage : FilterError → String
  | .loopback => "loopback addresses are not allowed"
  | .linkLocal => "link-local addresses are not allowed"
  | .privateNetwork => "private network addresses are not allowed"
  | .blockedNetwork => "address is in a blocked network"

/-- `AddressFilter.IsAllowed` on the parsed/resolved IP: loopback, then
link-local, then private (unless `allowPrivate`), then the custom
blocklist; `none` means allowed. -/
def IsAllowed (af : AddressFilter) (ip : IPAddr) : Option FilterError :=
  if isLoopback ip then some .loopback
  else if isLinkLocalUnicast ip then some .linkLocal
  else if !af.allowPrivate && isPrivateNetwork ip then some .privateNetwork
  else if af.blockedNets.any (fun c => cidrContains c ip) then some .blockedNetwork
  else none

/-! ## Constant-time token comparison (`common.TokenEqual`)

`TokenEqual` is `crypto/subtle.ConstantTimeCompare(a, b) == 1`.  The Go
routine returns 0 immediately on unequal lengths; otherwise it runs one
loop iteration per byte, accumulating `v |= x[i] ^ y[i]` with no
data-dependent branch, and finally tests `v == 0`.  The embedding pairs
the computed value with the number of loop iterations executed, the cost
observable of the timing claim. -/

/-- The accumulation loop of `subtle.ConstantTimeCompare`, returning the
accumulated OR of the XORs together with the iteration count. -/
def ctLoop : List Nat → List Nat → Nat → Nat × Nat
  | a :: as, b :: bs, v =>
    let r := ctLoop as bs (v ||| (a ^^^ b))
    (r.1, r.2 + 1)
  | _, _, v => (v, 0)

/-- `subtle.ConstantTimeCompare` instrumented with its loop-iteration
count: result (1 for equal, 0 otherwise) and iterations executed. -/
def ConstantTimeCompareRun (x y : List Nat) : Nat × Nat :=
  if x.length ≠ y.length then (0, 0)
  else
    let r := ctLoop x y 0
    (if r.1 = 0 then 1 else 0, r.2)

/-- `common.TokenEqual`. -/
def TokenEqual (a b : List Nat) : Bool :=
  (ConstantTimeCompareRun a b).1 == 1

/-! ## Client handshake-error handling (`pkg/rsk/client/client.go`)

`Client.Run` inspects a `HandshakeError` returned by `connect`: if
`IsAuthFail()` or `IsPortInUse()` it returns a permanent (terminal) error
and stops; any other handshake status is logged and retried after the
backoff delay.  The decision is embedded as a function of the error. -/

/-- `proto.StatusOK`. -/
def StatusOK : Nat := 0

/-- `proto.StatusAuthFail`. -/
def StatusAuthFail : Nat := 1

/-- `proto.StatusBadRequest`. -/
def StatusBadRequest : Nat := 2

/-- `proto.StatusPortForbidden`. -/
def StatusPortForbidden : Nat := 3

/-- `proto.StatusPortInUse`. -/
def StatusPortInUse : Nat := 4

/-- `proto.StatusServerInternal`. -/
def StatusServerInternal : Nat := 5

/-- `client.HandshakeError`. -/
structure HandshakeError where
  status : Nat
  message : String
deriving DecidableEq, Repr

/-- `HandshakeError.IsAuthFail`. -/
def IsAuthFail (e : HandshakeError) : Bool := e.status == StatusAuthFail

/-- `HandshakeError.IsPortInUse`. -/
def IsPortInUse (e : HandshakeError) : Bool := e.status == StatusPortInUse

/-- What `Client.Run` does with a handshake error. -/
inductive RunDecision where
  | terminal
  | retry
deriving DecidableEq, Repr

/-- The decision logic of `Client.Run` on a `HandshakeError`: terminal
(`backoff.Permanent`, `Run` returns the error) only for `IsAuthFail` and
`IsPortInUse`; every other status falls through to
"Handshake failed, will retry". -/
def classifyHandshakeError (e : HandshakeError) : RunDecision :=
  if IsAuthFail e then .terminal
  else if IsPortInUse e then .terminal
  else .retry

/-! ## Theorems -/

theorem readBytes_append (xs rest : List Nat) :
    readBytes xs.length (xs ++ rest) = .ok (xs, rest) := by
  induction xs with
  | nil => rfl
  | cons b bs ih => simp [readBytes, ih]

theorem readPorts_encPorts (ps rest : List Nat) :
    readPorts ps.length (encPorts ps ++ rest) = .ok (ps, rest) := by
  induction ps with
  | nil => rfl
  | cons p ps ih =>
    simp [readPorts, encPorts, readU16, ih]
    omega

theorem WriteHello_ok (h : Hello)
    (hm : h.magic = magicBytes) (hv : h.version = versionByte)
    (ht1 : 1 ≤ h.token.length) (ht2 : h.token.length ≤ 255)
    (hp1 : 1 ≤ h.ports.length) (hp2 : h.ports.length ≤ 16)
    (hn : h.name.length ≤ 64) :
    WriteHello h = .ok (h.magic ++ h.version :: h.token.length ::
      (h.token ++ h.ports.length :: (encPorts h.ports ++ h.name.length :: h.name))) := by
  unfold WriteHello
  rw [if_neg (by simp [hm]), if_neg (by simp [hv]), if_neg (by omega),
    if_neg (by omega), if_neg (by omega), if_neg (by omega)]

theorem ReadHello_WriteHello (h : Hello) (rest : List Nat)
    (hm : h.magic = magicBytes) (hv : h.version = versionByte)
    (ht1 : 1 ≤ h.token.length) (ht2 : h.token.length ≤ 255)
    (hp1 : 1 ≤ h.ports.length) (hp2 : h.ports.length ≤ 16)
    (hn : h.name.length ≤ 64) :
    ∀ bs, WriteHello h = .ok bs → ReadHello (bs ++ rest) = .ok (h, rest) := by
  intro bs hbs
  rw [WriteHello_ok h hm hv ht1 ht2 hp1 hp2 hn] at hbs
  cases hbs
  obtain ⟨mg, ver, tok, ps, nm⟩ := h
  simp only at hm hv ht1 ht2 hp1 hp2 hn
  subst hm hv
  have hc1 : ¬(tok.length < 1 ∨ 255 < tok.length) := by omega
  have hc2 : ¬(ps.length < 1 ∨ 16 < ps.length) := by omega
  have hc3 : ¬(64 < nm.length) := by omega
  unfold ReadHello
  rw [List.append_assoc, show (4 : Nat) = magicBytes.length from rfl, readBytes_append]
  simp [readByte, hc1, hc2, hc3, readBytes_append, readPorts_encPorts, versionByte]
  have ht0 : ¬(tok = [] ∨ 255 < tok.length) := by
    simp only [← List.length_eq_zero]
    omega
  have hp0 : ¬(ps = [] ∨ 16 < ps.length) := by
    simp only [← List.length_eq_zero]
    omega
  rw [if_neg ht0, if_neg hp0]

theorem WriteHelloResp_ok (h : HelloResp)
    (hv : h.version = versionByte) (hp : h.acceptedPorts.length ≤ 16)
    (hm : h.message.length ≤ 255) :
    WriteHelloResp h = .ok (h.version :: h.status :: h.acceptedPorts.length ::
      (encPorts h.acceptedPorts ++ h.message.length :: h.message)) := by
  unfold WriteHelloResp
  rw [if_neg (by simp [hv]), if_neg (by omega), if_neg (by omega)]

theorem ReadHelloResp_WriteHelloResp (h : HelloResp) (rest : List Nat)
    (hv : h.version = versionByte) (hp : h.acceptedPorts.length ≤ 16)
    (hm : h.message.length ≤ 255) :
    ∀ bs, WriteHelloResp h = .ok bs → ReadHelloResp (bs ++ rest) = .ok (h, rest) := by
  intro bs hbs
  rw [WriteHelloResp_ok h hv hp hm] at hbs
  cases hbs
  obtain ⟨ver, status, ps, msg⟩ := h
  simp only at hv hp hm
  subst hv
  have hc1 : ¬(16 < ps.length) := by omega
  have hc2 : ¬(255 < msg.length) := by omega
  unfold ReadHelloResp
  simp [readByte, hc1, hc2, readBytes_append, readPorts_encPorts, versionByte]

theorem ReadConnectReq_WriteConnectReq (addr rest : List Nat)
    (ha1 : 1 ≤ addr.length) (ha2 : addr.length ≤ 1024) :
    ∀ bs, WriteConnectReq addr = .ok bs → ReadConnectReq (bs ++ rest) = .ok (addr, rest) := by
  intro bs hbs
  unfold WriteConnectReq at hbs
  rw [if_neg (by omega)] at hbs
  cases hbs
  have hc : ¬(addr.length < 1 ∨ 1024 < addr.length) := by omega
  unfold ReadConnectReq
  have hdm : addr.length / 256 * 256 + addr.length % 256 = addr.length := by omega
  simp [readU16, hdm, hc, readBytes_append]
  constructor
  · intro hnil
    subst hnil
    simp at ha1
  · omega

theorem findConflict_some (reg : Registry) :
    ∀ ports p, findConflict reg ports = some p →
      (reg.slots p).isSome = true ∧
      ∃ l₁ l₂, ports = l₁ ++ p :: l₂ ∧ ∀ q ∈ l₁, reg.slots q = none := by
  intro ports
  induction ports with
  | nil => intro p h; simp [findConflict] at h
  | cons a as ih =>
    intro p h
    unfold findConflict at h
    by_cases ha : (reg.slots a).isSome
    · rw [if_pos ha] at h
      cases h
      exact ⟨ha, [], as, rfl, by simp⟩
    · rw [if_neg ha] at h
      obtain ⟨hp, l₁, l₂, heq, hnone⟩ := ih p h
      refine ⟨hp, a :: l₁, l₂, by rw [heq]; rfl, ?_⟩
      intro q hq
      rcases List.mem_cons.mp hq with hqa | hql
      · subst hqa
        exact Option.not_isSome_iff_eq_none.mp ha
      · exact hnone q hql

/-- C3: when `ReservePorts` returns an error, the error is a
`PortInUseError` naming the first requested port that is already present
(every earlier requested port is absent), and the registry map is
returned unchanged: no requested port was inserted and no slot was
modified. -/
theorem reservePorts_error_atomic (reg : Registry) (ports : List Nat) (e : PortInUseError)
    (h : (ReservePorts reg ports).2 = some e) :
    (ReservePorts reg ports).1 = reg ∧
    (reg.slots e.Port).isSome = true ∧
    ∃ l₁ l₂, ports = l₁ ++ e.Port :: l₂ ∧ ∀ q ∈ l₁, reg.slots q = none := by
  unfold ReservePorts at h ⊢
  cases hf : findConflict reg ports with
  | none => rw [hf] at h; simp at h
  | some p =>
    obtain ⟨hp, l₁, l₂, heq, hnone⟩ := findConflict_some reg ports p hf
    rw [hf] at h
    have h2 : (some ⟨p⟩ : Option PortInUseError) = some e := h
    injection h2 with h3
    subst h3
    exact ⟨rfl, hp, l₁, l₂, heq, hnone⟩

/-- C3 witness: a concrete registry holding port 5; requesting `[4, 5, 6]`
fails naming 5, leaves the map unchanged, and 4 precedes the offender. -/
theorem reservePorts_error_atomic_witness :
    (ReservePorts ⟨fun q => if q = 5 then some (emptySlot 5) else none,
        fun _ => 0, fun _ => 0, fun _ => false⟩ [4, 5, 6]).1 =
      ⟨fun q => if q = 5 then some (emptySlot 5) else none,
        fun _ => 0, fun _ => 0, fun _ => false⟩ ∧
    ((⟨fun q => if q = 5 then some (emptySlot 5) else none,
        fun _ => 0, fun _ => 0, fun _ => false⟩ : Registry).slots
      (⟨5⟩ : PortInUseError).Port).isSome = true ∧
    ∃ l₁ l₂, [4, 5, 6] = l₁ ++ (⟨5⟩ : PortInUseError).Port :: l₂ ∧
      ∀ q ∈ l₁,
        (⟨fun q => if q = 5 then some (emptySlot 5) else none,
          fun _ => 0, fun _ => 0, fun _ => false⟩ : Registry).slots q = none :=
  reservePorts_error_atomic _ [4, 5, 6] ⟨5⟩ (by decide)

/-- C10: for a present slot `BindSession` always succeeds, unconditionally
overwriting session, listener, client metadata and `maxConns` and
resetting `activeConns` to 0 — even when the slot already holds a non-nil
session (no previous-session check exists); the only error case is an
absent slot, which yields `PortNotReservedError`. -/
theorem bindSession_overwrites (reg : Registry) (p : Nat) (sess listener : Option Nat)
    (meta : ClientMeta) (mc : Int) :
    (∀ slot, reg.slots p = some slot →
      BindSession reg p sess listener meta mc =
        (setSlot reg p { slot with
            session := sess, socksListener := listener,
            clientName := meta.ClientName, clientID := meta.ClientID,
            maxConns := mc, activeConns := 0 }, none)) ∧
    (reg.slots p = none →
      BindSession reg p sess listener meta mc = (reg, some ⟨p⟩)) := by
  constructor
  · intro slot hs
    unfold BindSession
    rw [hs]
  · intro hs
    unfold BindSession
    rw [hs]

/-- C10 witness: a registry whose slot 7 already holds the non-nil session
`some 1` is rebound without error, and binding absent port 8 in an empty
registry fails with `PortNotReservedError 8`. -/
theorem bindSession_overwrites_witness :
    BindSession
        ⟨fun q => if q = 7 then some ⟨7, "old", "oldid", some 1, some 9, 3, 5, false⟩ else none,
          fun _ => 0, fun _ => 0, fun _ => false⟩
        7 (some 2) (some 3) ⟨"new", "newid"⟩ 4 =
      (setSlot
        ⟨fun q => if q = 7 then some ⟨7, "old", "oldid", some 1, some 9, 3, 5, false⟩ else none,
          fun _ => 0, fun _ => 0, fun _ => false⟩
        7 ⟨7, "new", "newid", some 2, some 3, 0, 4, false⟩, none) ∧
    BindSession ⟨fun _ => none, fun _ => 0, fun _ => 0, fun _ => false⟩
        8 (some 2) (some 3) ⟨"new", "newid"⟩ 4 =
      (⟨fun _ => none, fun _ => 0, fun _ => 0, fun _ => false⟩, some ⟨8⟩) :=
  ⟨(bindSession_overwrites _ 7 (some 2) (some 3) ⟨"new", "newid"⟩ 4).1
      ⟨7, "old", "oldid", some 1, some 9, 3, 5, false⟩ (by simp),
   (bindSession_overwrites _ 8 (some 2) (some 3) ⟨"new", "newid"⟩ 4).2 rfl⟩

theorem setSlot_slots_self (reg : Registry) (p : Nat) (s : ClientSlot) :
    (setSlot reg p s).slots p = some s := by
  simp [setSlot]

theorem counter_invariant (p : Nat) :
    ∀ (pre post : List CountOp) (reg : Registry) (credit : Nat) (slot : ClientSlot),
      reg.slots p = some slot →
      slot.activeConns = (credit : Int) →
      slot.activeConns ≤ slot.maxConns →
      okTrace reg p credit (pre ++ post) = true →
      ∃ slot', (runOps reg p pre).slots p = some slot' ∧
        0 ≤ slot'.activeConns ∧ slot'.activeConns ≤ slot'.maxConns ∧
        slot'.maxConns = slot.maxConns := by
  intro pre
  induction pre with
  | nil =>
    intro post reg credit slot hs hc hle _
    exact ⟨slot, hs, by omega, hle, rfl⟩
  | cons op rest ih =>
    intro post reg credit slot hs hc hle hok
    cases op with
    | inc =>
      rw [List.cons_append] at hok
      unfold okTrace at hok
      by_cases hfull : slot.maxConns ≤ slot.activeConns
      · have hinc : IncrementConnections reg p = (false, reg) := by
          unfold IncrementConnections
          rw [hs]
          exact if_pos hfull
        rw [hinc] at hok
        simp only at hok
        have := ih post reg credit slot hs hc hle hok
        simpa [runOps, hinc] using this
      · have hinc : IncrementConnections reg p =
            (true, setSlot reg p { slot with activeConns := slot.activeConns + 1 }) := by
          unfold IncrementConnections
          rw [hs]
          exact if_neg hfull
        rw [hinc] at hok
        simp only [if_true] at hok
        have hs' := setSlot_slots_self reg p { slot with activeConns := slot.activeConns + 1 }
        have := ih post _ (credit + 1) _ hs' (by simp [hc]) (by simp; omega) hok
        simpa [runOps, hinc] using this
    | dec =>
      rw [List.cons_append] at hok
      unfold okTrace at hok
      rw [Bool.and_eq_true] at hok
      obtain ⟨hcr, hok⟩ := hok
      have hcredit : credit ≠ 0 := by simpa using hcr
      have hdec : DecrementConnections reg p =
          setSlot reg p { slot with activeConns := slot.activeConns - 1 } := by
        unfold DecrementConnections
        rw [hs]
      rw [hdec] at hok
      have hs' := setSlot_slots_self reg p { slot with activeConns := slot.activeConns - 1 }
      have := ih post _ (credit - 1) _ hs'
        (by simp [hc]; omega) (by simp; omega) hok
      simpa [runOps, hdec] using this

/-- C6: for a bound port with a non-negative cap and any well-formed
trace of `IncrementConnections` / `DecrementConnections` calls (each
decrement preceded by a distinct unmatched successful increment), the
invariant `0 ≤ activeConns ≤ maxConns` holds after every prefix of the
trace; and `IncrementConnections` returns `false` and leaves the registry
unchanged whenever the increment would exceed `maxConns`. -/
theorem connectionCap_invariant (reg : Registry) (p : Nat) (slot : ClientSlot)
    (ops : List CountOp)
    (hs : reg.slots p = some slot) (h0 : slot.activeConns = 0)
    (hM : 0 ≤ slot.maxConns)
    (hok : okTrace reg p 0 ops = true) :
    (∀ pre post, ops = pre ++ post →
      ∃ slot2, (runOps reg p pre).slots p = some slot2 ∧
        0 ≤ slot2.activeConns ∧ slot2.activeConns ≤ slot2.maxConns) ∧
    (∀ (reg2 : Registry) (s : ClientSlot), reg2.slots p = some s →
      s.maxConns ≤ s.activeConns →
      IncrementConnections reg2 p = (false, reg2)) := by
  constructor
  · intro pre post hsplit
    rw [hsplit] at hok
    obtain ⟨slot2, hs2, hge, hle2, _⟩ :=
      counter_invariant p pre post reg 0 slot hs (by simpa using h0) (by omega) hok
    exact ⟨slot2, hs2, hge, hle2⟩
  · intro reg2 s hs2 hfull
    unfold IncrementConnections
    rw [hs2]
    exact if_pos hfull

/-- C6 witness: port 7 bound with cap 2; the trace
inc, inc, inc (refused), dec, inc is well formed and the invariant holds
after the full trace; an increment on a full slot is refused without
change. -/
theorem connectionCap_invariant_witness :
    (∀ pre post,
      ([CountOp.inc, CountOp.inc, CountOp.inc, CountOp.dec, CountOp.inc] : List CountOp) =
        pre ++ post →
      ∃ slot2, (runOps ⟨fun q => if q = 7 then some ⟨7, "c", "i", some 1, some 2, 0, 2, false⟩
          else none, fun _ => 0, fun _ => 0, fun _ => false⟩ 7 pre).slots 7 = some slot2 ∧
        0 ≤ slot2.activeConns ∧ slot2.activeConns ≤ slot2.maxConns) ∧
    (∀ (reg2 : Registry) (s : ClientSlot), reg2.slots 7 = some s →
      s.maxConns ≤ s.activeConns →
      IncrementConnections reg2 7 = (false, reg2)) :=
  connectionCap_invariant _ 7 ⟨7, "c", "i", some 1, some 2, 0, 2, false⟩
    [CountOp.inc, CountOp.inc, CountOp.inc, CountOp.dec, CountOp.inc]
    (by simp) rfl (by decide) (by decide)

theorem releaseSlot_preserves_none (reg : Registry) (q p : Nat)
    (h : reg.slots p = none) : (releaseSlot reg q).slots p = none := by
  unfold releaseSlot
  cases hq : reg.slots q with
  | none => exact h
  | some slot =>
    simp only
    by_cases hpq : p = q
    · simp [hpq]
    · simp [hpq, h]

theorem foldl_releaseSlot_preserves_none (p : Nat) :
    ∀ (ps : List Nat) (reg : Registry), reg.slots p = none →
      (ReleasePorts reg ps).slots p = none := by
  intro ps
  induction ps with
  | nil => intro reg h; exact h
  | cons a l ih =>
    intro reg h
    unfold ReleasePorts at ih ⊢
    rw [List.foldl_cons]
    exact ih _ (releaseSlot_preserves_none reg a p h)

theorem releaseSlot_slots_self (reg : Registry) (p : Nat) :
    (releaseSlot reg p).slots p = none := by
  unfold releaseSlot
  cases hq : reg.slots p with
  | none => exact hq
  | some slot => simp

theorem ReleasePorts_slots_mem (p : Nat) :
    ∀ (ps : List Nat) (reg : Registry), p ∈ ps →
      (ReleasePorts reg ps).slots p = none := by
  intro ps
  induction ps with
  | nil => intro reg h; simp at h
  | cons a l ih =>
    intro reg h
    unfold ReleasePorts at ih ⊢
    rw [List.foldl_cons]
    rcases List.mem_cons.mp h with hpa | hpl
    · subst hpa
      exact foldl_releaseSlot_preserves_none p l _ (releaseSlot_slots_self reg p)
    · exact ih _ hpl

theorem releaseSlot_absent (reg : Registry) (p : Nat) (h : reg.slots p = none) :
    releaseSlot reg p = reg := by
  unfold releaseSlot
  rw [h]

theorem ReleasePorts_noop :
    ∀ (ps : List Nat) (reg : Registry), (∀ q ∈ ps, reg.slots q = none) →
      ReleasePorts reg ps = reg := by
  intro ps
  induction ps with
  | nil => intro reg _; rfl
  | cons a l ih =>
    intro reg h
    unfold ReleasePorts at ih ⊢
    rw [List.foldl_cons, releaseSlot_absent reg a (h a (by simp))]
    exact ih reg fun q hq => h q (by simp [hq])

theorem cleanupInv_releaseSlot (reg : Registry) (q p : Nat)
    (h : cleanupInv reg p) : cleanupInv (releaseSlot reg q) p := by
  obtain ⟨⟨hl, hs⟩, hz⟩ := h
  unfold releaseSlot
  split
  · exact ⟨⟨hl, hs⟩, hz⟩
  · rename_i slot hq
    unfold cleanupInv
    by_cases hpq : p = q
    · subst hpq
      obtain ⟨hz1, hz2⟩ := hz (by simp [hq])
      dsimp only
      constructor
      · constructor
        · rw [if_pos rfl]
          split <;> omega
        · rw [if_pos rfl]
          split <;> omega
      · intro habs
        rw [if_pos rfl] at habs
        simp at habs
    · dsimp only
      rw [if_neg hpq, if_neg hpq, if_neg hpq]
      exact ⟨⟨hl, hs⟩, hz⟩

theorem cleanupInv_ReleasePorts (p : Nat) :
    ∀ (ps : List Nat) (reg : Registry), cleanupInv reg p →
      cleanupInv (ReleasePorts reg ps) p := by
  intro ps
  induction ps with
  | nil => intro reg h; exact h
  | cons a l ih =>
    intro reg h
    unfold ReleasePorts at ih ⊢
    rw [List.foldl_cons]
    exact ih _ (cleanupInv_releaseSlot reg a p h)

theorem cleanupInv_releaseFuncRun (reg : Registry) (i : Nat) (ports : List Nat) (p : Nat)
    (h : cleanupInv reg p) : cleanupInv (releaseFuncRun reg i ports) p := by
  obtain ⟨⟨hl, hs⟩, hz⟩ := h
  unfold releaseFuncRun
  split
  · exact ⟨⟨hl, hs⟩, hz⟩
  · refine ⟨⟨hl, hs⟩, ?_⟩
    intro hsome
    dsimp only at hsome
    by_cases hmem : p ∈ ports
    · rw [if_pos hmem] at hsome
      simp at hsome
    · rw [if_neg hmem] at hsome
      exact hz hsome

theorem cleanupInv_runRel (env : Nat → List Nat) (p : Nat) :
    ∀ (ops : List RelOp) (reg : Registry), cleanupInv reg p →
      cleanupInv (runRel env reg ops) p := by
  intro ops
  induction ops with
  | nil => intro reg h; exact h
  | cons op rest ih =>
    intro reg h
    unfold runRel at ih ⊢
    rw [List.foldl_cons]
    refine ih _ ?_
    cases op with
    | rel ps => exact cleanupInv_ReleasePorts p ps reg h
    | clo i => exact cleanupInv_releaseFuncRun reg i (env i) p h

theorem releaseFuncRun_idem (reg : Registry) (i : Nat) (ports : List Nat) :
    releaseFuncRun (releaseFuncRun reg i ports) i ports = releaseFuncRun reg i ports := by
  by_cases h : reg.cloReleased i
  · have hinner : releaseFuncRun reg i ports = reg := by
      unfold releaseFuncRun
      rw [if_pos h]
    rw [hinner]
    exact hinner
  · have hflag : (releaseFuncRun reg i ports).cloReleased i = true := by
      unfold releaseFuncRun
      rw [if_neg h]
      dsimp only
      rw [if_pos rfl]
    conv_lhs => rw [releaseFuncRun]
    rw [if_pos hflag]

/-- C5: across any interleaving of `ReleasePorts` calls and release-closure
invocations, the cleanup side effects for a slot (closing its
`socksListener`, running its `stopFunc`) execute at most once; a repeated
`ReleasePorts` with the same or a subset of the ports has no further
effect, and the release closure is idempotent. -/
theorem cleanup_once_and_idempotent (env : Nat → List Nat) (reg : Registry) (p : Nat)
    (ops : List RelOp)
    (h1 : reg.listenerCloses p = 0) (h2 : reg.stopFuncRuns p = 0) :
    ((runRel env reg ops).listenerCloses p ≤ 1 ∧
      (runRel env reg ops).stopFuncRuns p ≤ 1) ∧
    (∀ (reg2 : Registry) (ps ps2 : List Nat), (∀ q ∈ ps2, q ∈ ps) →
      ReleasePorts (ReleasePorts reg2 ps) ps2 = ReleasePorts reg2 ps) ∧
    (∀ (reg2 : Registry) (i : Nat),
      stepRel env (stepRel env reg2 (RelOp.clo i)) (RelOp.clo i) =
        stepRel env reg2 (RelOp.clo i)) := by
  refine ⟨?_, ?_, ?_⟩
  · have hinv : cleanupInv reg p := ⟨⟨by omega, by omega⟩, fun _ => ⟨h1, h2⟩⟩
    have := cleanupInv_runRel env p ops reg hinv
    exact this.1
  · intro reg2 ps ps2 hsub
    refine ReleasePorts_noop ps2 _ ?_
    intro q hq
    exact ReleasePorts_slots_mem q ps reg2 (hsub q hq)
  · intro reg2 i
    exact releaseFuncRun_idem reg2 i (env i)

/-- C5 witness: from a registry holding slot 7 (with a listener and a stop
function), the interleaving
release closure 0, `ReleasePorts [7]`, `ReleasePorts [7]`, closure 0
runs each cleanup effect at most once, and both release operations are
idempotent. -/
theorem cleanup_once_and_idempotent_witness :
    ((runRel (fun _ => [7])
        ⟨fun q => if q = 7 then some ⟨7, "c", "i", some 1, some 2, 0, 2, true⟩ else none,
          fun _ => 0, fun _ => 0, fun _ => false⟩
        [RelOp.clo 0, RelOp.rel [7], RelOp.rel [7], RelOp.clo 0]).listenerCloses 7 ≤ 1 ∧
      (runRel (fun _ => [7])
        ⟨fun q => if q = 7 then some ⟨7, "c", "i", some 1, some 2, 0, 2, true⟩ else none,
          fun _ => 0, fun _ => 0, fun _ => false⟩
        [RelOp.clo 0, RelOp.rel [7], RelOp.rel [7], RelOp.clo 0]).stopFuncRuns 7 ≤ 1) ∧
    (∀ (reg2 : Registry) (ps ps2 : List Nat), (∀ q ∈ ps2, q ∈ ps) →
      ReleasePorts (ReleasePorts reg2 ps) ps2 = ReleasePorts reg2 ps) ∧
    (∀ (reg2 : Registry) (i : Nat),
      stepRel (fun _ => [7]) (stepRel (fun _ => [7]) reg2 (RelOp.clo i)) (RelOp.clo i) =
        stepRel (fun _ => [7]) reg2 (RelOp.clo i)) :=
  cleanup_once_and_idempotent (fun _ => [7])
    ⟨fun q => if q = 7 then some ⟨7, "c", "i", some 1, some 2, 0, 2, true⟩ else none,
      fun _ => 0, fun _ => 0, fun _ => false⟩
    7 [RelOp.clo 0, RelOp.rel [7], RelOp.rel [7], RelOp.clo 0] rfl rfl

theorem closeIter_closed (p : Nat) :
    ∀ (n : Nat) (reg : Registry), closeIter (reg, ⟨p, true⟩) n = (reg, ⟨p, true⟩) := by
  intro n
  induction n with
  | zero => intro reg; rfl
  | succ m ih =>
    intro reg
    unfold closeIter
    rw [show closeStream (reg, ⟨p, true⟩) = (reg, ⟨p, true⟩) from rfl]
    exact ih reg

/-- C1 (modelled from spec §4.6): the counting dialer calls
`IncrementConnections(port)` first — if any sub-stream was opened, the
increment succeeded; when the increment is refused it fails with the
"connection limit reached" error, leaves the registry unchanged, and opens
no sub-stream; and `Close` of the returned stream decrements the counter
exactly once under any positive number of (serialized) close calls. -/
theorem dialer_counts_and_closes_once (reg regc : Registry) (p : Nat)
    (openOk writeOk : Bool) (n : Nat) (slot : ClientSlot) :
    ((IncrementConnections reg p).1 = false →
      createDialerRun reg p openOk writeOk = (.error .connectionLimit, reg, 0) ∧
      dialErrMessage .connectionLimit = "connection limit reached") ∧
    ((createDialerRun reg p openOk writeOk).2.2 ≠ 0 →
      (IncrementConnections reg p).1 = true) ∧
    (regc.slots p = some slot →
      closeIter (regc, ⟨p, false⟩) (n + 1) =
        (DecrementConnections regc p, ⟨p, true⟩) ∧
      GetConnectionCount (closeIter (regc, ⟨p, false⟩) (n + 1)).1 p =
        GetConnectionCount regc p - 1) := by
  refine ⟨?_, ?_, ?_⟩
  · intro hfail
    constructor
    · unfold createDialerRun
      dsimp only
      rw [hfail]
      simp
    · rfl
  · intro hopened
    by_cases hinc : (IncrementConnections reg p).1 = true
    · exact hinc
    · exfalso
      apply hopened
      unfold createDialerRun
      dsimp only
      rw [Bool.not_eq_true] at hinc
      rw [hinc]
      simp
  · intro hslot
    have hstep : closeIter (regc, ⟨p, false⟩) (n + 1) =
        (DecrementConnections regc p, ⟨p, true⟩) := by
      unfold closeIter
      rw [show closeStream (regc, ⟨p, false⟩) =
        (DecrementConnections regc p, ⟨p, true⟩) from rfl]
      exact closeIter_closed p n _
    refine ⟨hstep, ?_⟩
    rw [hstep]
    unfold GetConnectionCount DecrementConnections
    rw [hslot]
    dsimp only
    rw [setSlot_slots_self]

/-- C1 witness: with slot 7 at its cap (2 of 2) the dialer fails with the
"connection limit reached" error, opening nothing and leaving the registry
unchanged; with a free slot the increment succeeded whenever a sub-stream
was opened; and three serialized closes of a fresh counting stream
decrement the count exactly once. -/
theorem dialer_counts_and_closes_once_witness :
    (createDialerRun
        ⟨fun q => if q = 7 then some ⟨7, "c", "i", some 1, some 2, 2, 2, false⟩ else none,
          fun _ => 0, fun _ => 0, fun _ => false⟩ 7 true true =
      (.error .connectionLimit,
        ⟨fun q => if q = 7 then some ⟨7, "c", "i", some 1, some 2, 2, 2, false⟩ else none,
          fun _ => 0, fun _ => 0, fun _ => false⟩, 0) ∧
      dialErrMessage .connectionLimit = "connection limit reached") ∧
    (IncrementConnections
        ⟨fun q => if q = 7 then some ⟨7, "c", "i", some 1, some 2, 0, 2, false⟩ else none,
          fun _ => 0, fun _ => 0, fun _ => false⟩ 7).1 = true ∧
    (closeIter
        (⟨fun q => if q = 7 then some ⟨7, "c", "i", some 1, some 2, 1, 2, false⟩ else none,
          fun _ => 0, fun _ => 0, fun _ => false⟩, ⟨7, false⟩) (2 + 1) =
      (DecrementConnections
        ⟨fun q => if q = 7 then some ⟨7, "c", "i", some 1, some 2, 1, 2, false⟩ else none,
          fun _ => 0, fun _ => 0, fun _ => false⟩ 7, ⟨7, true⟩) ∧
      GetConnectionCount
        (closeIter
          (⟨fun q => if q = 7 then some ⟨7, "c", "i", some 1, some 2, 1, 2, false⟩ else none,
            fun _ => 0, fun _ => 0, fun _ => false⟩, ⟨7, false⟩) (2 + 1)).1 7 =
      GetConnectionCount
        ⟨fun q => if q = 7 then some ⟨7, "c", "i", some 1, some 2, 1, 2, false⟩ else none,
          fun _ => 0, fun _ => 0, fun _ => false⟩ 7 - 1) :=
  ⟨(dialer_counts_and_closes_once
      ⟨fun q => if q = 7 then some ⟨7, "c", "i", some 1, some 2, 2, 2, false⟩ else none,
        fun _ => 0, fun _ => 0, fun _ => false⟩
      ⟨fun q => if q = 7 then some ⟨7, "c", "i", some 1, some 2, 2, 2, false⟩ else none,
        fun _ => 0, fun _ => 0, fun _ => false⟩ 7 true true 0
      ⟨7, "c", "i", some 1, some 2, 2, 2, false⟩).1 (by decide),
   (dialer_counts_and_closes_once
      ⟨fun q => if q = 7 then some ⟨7, "c", "i", some 1, some 2, 0, 2, false⟩ else none,
        fun _ => 0, fun _ => 0, fun _ => false⟩
      ⟨fun q => if q = 7 then some ⟨7, "c", "i", some 1, some 2, 0, 2, false⟩ else none,
        fun _ => 0, fun _ => 0, fun _ => false⟩ 7 true true 0
      ⟨7, "c", "i", some 1, some 2, 0, 2, false⟩).2.1 (by decide),
   (dialer_counts_and_closes_once
      ⟨fun q => if q = 7 then some ⟨7, "c", "i", some 1, some 2, 1, 2, false⟩ else none,
        fun _ => 0, fun _ => 0, fun _ => false⟩
      ⟨fun q => if q = 7 then some ⟨7, "c", "i", some 1, some 2, 1, 2, false⟩ else none,
        fun _ => 0, fun _ => 0, fun _ => false⟩ 7 true true 2
      ⟨7, "c", "i", some 1, some 2, 1, 2, false⟩).2.2 (by decide)⟩

/-- C7: for an IP with an entry, `IsBlocked` is true iff the entry's
`blockedAt` is set and less than `blockDuration` has elapsed since it; and
right after a `RecordFailure` at instant `t0` that reports blocking
(reaching `maxFailures`), `IsBlocked` at any instant `now` is true exactly
when `now - t0 < blockDuration` — blocked for exactly `blockDuration`,
then unblocked. -/
theorem isBlocked_iff_within_window (rl : IPRateLimiter) (ip : String)
    (now t0 : Int) (e : IPEntry) :
    (rl.limiters ip = some e →
      (IsBlocked rl ip now = true ↔
        ∃ t, e.blockedAt = some t ∧ now - t < rl.blockDuration)) ∧
    ((RecordFailure rl ip t0).1 = true →
      (IsBlocked (RecordFailure rl ip t0).2 ip now = true ↔
        now - t0 < rl.blockDuration)) := by
  constructor
  · intro he
    unfold IsBlocked
    rw [he]
    cases hb : e.blockedAt with
    | none => simp [hb]
    | some t => simp [hb]
  · intro hrec
    unfold RecordFailure at hrec ⊢
    dsimp only at hrec ⊢
    by_cases hth : rl.maxFailures ≤ ((rl.limiters ip).getD ⟨0, none⟩).failures + 1
    · rw [if_pos hth]
      unfold IsBlocked
      dsimp only
      rw [if_pos rfl]
      simp
    · rw [if_neg hth] at hrec
      simp at hrec

/-- C7 witness: limiter with `maxFailures = 1`, `blockDuration = 5`; an
entry blocked at instant 3 is blocked at `now = 7` (within the window) and
a failure recorded at `t0 = 10` blocks exactly while `now - 10 < 5`. -/
theorem isBlocked_iff_within_window_witness :
    (IsBlocked ⟨fun j => if j = "a" then some ⟨1, some 3⟩ else none, 1, 5⟩ "a" 7 = true ↔
      ∃ t, (⟨1, some 3⟩ : IPEntry).blockedAt = some t ∧ 7 - t < 5) ∧
    (IsBlocked
        (RecordFailure ⟨fun j => if j = "a" then some ⟨1, some 3⟩ else none, 1, 5⟩ "a" 10).2
        "a" 14 = true ↔ (14 : Int) - 10 < 5) :=
  ⟨((isBlocked_iff_within_window
      ⟨fun j => if j = "a" then some ⟨1, some 3⟩ else none, 1, 5⟩ "a" 7 10 ⟨1, some 3⟩).1
      (by simp)),
   ((isBlocked_iff_within_window
      ⟨fun j => if j = "a" then some ⟨1, some 3⟩ else none, 1, 5⟩ "a" 14 10 ⟨1, some 3⟩).2
      (by decide))⟩

theorem linkLocal_not_loopback (ip : IPAddr) (h : isLinkLocalUnicast ip = true) :
    isLoopback ip = false := by
  cases ip with
  | v4 a =>
    simp only [isLinkLocalUnicast, beq_iff_eq] at h
    simp only [isLoopback, beq_eq_false_iff_ne, ne_eq]
    intro habs
    have h24 : a / 2 ^ 24 = a / 2 ^ 16 / 2 ^ 8 := by
      rw [Nat.div_div_eq_div_mul]
      norm_num
    rw [h24, h] at habs
    omega
  | v6 a =>
    simp only [isLinkLocalUnicast, beq_iff_eq] at h
    simp only [isLoopback, beq_eq_false_iff_ne, ne_eq]
    intro habs
    subst habs
    simp at h

/-- C8: for every filter configuration (any `allowPrivate`, any custom
blocklist), a loopback address is rejected with the loopback error and a
link-local address with the link-local error; and any address inside a
custom blocked CIDR is rejected (with some error) regardless of
`allowPrivate`. -/
theorem addressFilter_precedence (af : AddressFilter) (ip : IPAddr) :
    (isLoopback ip = true → IsAllowed af ip = some FilterError.loopback) ∧
    (isLinkLocalUnicast ip = true → IsAllowed af ip = some FilterError.linkLocal) ∧
    (∀ c ∈ af.blockedNets, cidrContains c ip = true → IsAllowed af ip ≠ none) := by
  refine ⟨?_, ?_, ?_⟩
  · intro h
    unfold IsAllowed
    rw [if_pos h]
  · intro h
    unfold IsAllowed
    rw [if_neg (by simp [linkLocal_not_loopback ip h]), if_pos h]
  · intro c hc hin
    unfold IsAllowed
    by_cases h1 : isLoopback ip = true
    · rw [if_pos h1]; simp
    · rw [if_neg h1]
      by_cases h2 : isLinkLocalUnicast ip = true
      · rw [if_pos h2]; simp
      · rw [if_neg h2]
        by_cases h3 : (!af.allowPrivate && isPrivateNetwork ip) = true
        · rw [if_pos h3]; simp
        · rw [if_neg h3, if_pos (by
            rw [List.any_eq_true]
            exact ⟨c, hc, hin⟩)]
          simp

/-- C8 witness: with `allowPrivate = true` and blocklist `[10.0.0.0/8]`,
the loopback 127.0.0.1 and link-local 169.254.0.1 are rejected with their
categories, and 10.0.0.1 (in the custom blocklist) is rejected even though
private addresses are allowed. -/
theorem addressFilter_precedence_witness :
    IsAllowed ⟨true, [⟨.v4 (10 * 2 ^ 24), 8⟩]⟩ (.v4 2130706433) =
      some FilterError.loopback ∧
    IsAllowed ⟨true, [⟨.v4 (10 * 2 ^ 24), 8⟩]⟩ (.v4 2851995649) =
      some FilterError.linkLocal ∧
    IsAllowed ⟨true, [⟨.v4 (10 * 2 ^ 24), 8⟩]⟩ (.v4 167772161) ≠ none :=
  ⟨(addressFilter_precedence ⟨true, [⟨.v4 (10 * 2 ^ 24), 8⟩]⟩ (.v4 2130706433)).1
      (by decide),
   (addressFilter_precedence ⟨true, [⟨.v4 (10 * 2 ^ 24), 8⟩]⟩ (.v4 2851995649)).2.1
      (by decide),
   (addressFilter_precedence ⟨true, [⟨.v4 (10 * 2 ^ 24), 8⟩]⟩ (.v4 167772161)).2.2
      ⟨.v4 (10 * 2 ^ 24), 8⟩ (by decide) (by decide)⟩

theorem ctLoop_steps :
    ∀ (x y : List Nat) (v : Nat), (ctLoop x y v).2 = min x.length y.length := by
  intro x
  induction x with
  | nil => intro y v; cases y <;> simp [ctLoop]
  | cons a as ih =>
    intro y v
    cases y with
    | nil => simp [ctLoop]
    | cons b bs =>
      simp [ctLoop, ih]
      omega

/-- C9: the token comparison runs in constant time — for equal-length
inputs the number of loop iterations (the data-dependent cost of the
comparison) equals the common length, so it is independent of the inputs'
bytes and in particular of the position of the first differing byte. -/
theorem tokenEqual_constant_time (a b a' b' : List Nat)
    (hab : a.length = b.length) (hab' : a'.length = b'.length)
    (hlen : a.length = a'.length) :
    (ConstantTimeCompareRun a b).2 = (ConstantTimeCompareRun a' b').2 ∧
    (ConstantTimeCompareRun a b).2 = a.length := by
  have e1 : (ConstantTimeCompareRun a b).2 = a.length := by
    unfold ConstantTimeCompareRun
    rw [if_neg (by omega)]
    dsimp only
    rw [ctLoop_steps]
    omega
  have e2 : (ConstantTimeCompareRun a' b').2 = a'.length := by
    unfold ConstantTimeCompareRun
    rw [if_neg (by omega)]
    dsimp only
    rw [ctLoop_steps]
    omega
  exact ⟨by rw [e1, e2, hlen], e1⟩

/-- C9 witness: two pairs of equal-length tokens, the first differing at
byte 0, the second differing at byte 2, take the same number of loop
iterations (three — the common length). -/
theorem tokenEqual_constant_time_witness :
    (ConstantTimeCompareRun [9, 2, 3] [1, 2, 3]).2 =
      (ConstantTimeCompareRun [1, 2, 3] [1, 2, 9]).2 ∧
    (ConstantTimeCompareRun [9, 2, 3] [1, 2, 3]).2 = ([9, 2, 3] : List Nat).length :=
  tokenEqual_constant_time [9, 2, 3] [1, 2, 3] [1, 2, 3] [1, 2, 9]
    (by decide) (by decide) (by decide)

theorem nat_lor_eq_zero (m n : Nat) : m ||| n = 0 ↔ m = 0 ∧ n = 0 := by
  constructor
  · intro h
    have hbit : ∀ i, m.testBit i = false ∧ n.testBit i = false := by
      intro i
      have h1 : (m ||| n).testBit i = false := by rw [h]; simp
      rw [Nat.testBit_lor] at h1
      exact ⟨by cases hmi : m.testBit i <;> simp_all, by cases hni : n.testBit i <;> simp_all⟩
    constructor
    · exact Nat.eq_of_testBit_eq fun i => by simp [(hbit i).1]
    · exact Nat.eq_of_testBit_eq fun i => by simp [(hbit i).2]
  · rintro ⟨rfl, rfl⟩
    rfl

/-- Soundness of the embedded comparator (supporting fact, not a claim):
`TokenEqual` computes equality of the byte lists. -/
theorem tokenEqual_correct : ∀ a b : List Nat, TokenEqual a b = true ↔ a = b := by
  have hloop : ∀ (x y : List Nat) (v : Nat), x.length = y.length →
      ((ctLoop x y v).1 = 0 ↔ v = 0 ∧ x = y) := by
    intro x
    induction x with
    | nil =>
      intro y v hlen
      cases y with
      | nil => simp [ctLoop]
      | cons b bs => simp at hlen
    | cons a as ih =>
      intro y v hlen
      cases y with
      | nil => simp at hlen
      | cons b bs =>
        simp only [List.length_cons] at hlen
        unfold ctLoop
        dsimp only
        rw [ih bs (v ||| (a ^^^ b)) (by omega)]
        constructor
        · rintro ⟨hv, he⟩
          have hv0 := (nat_lor_eq_zero v (a ^^^ b)).mp hv
          exact ⟨hv0.1, by simp [Nat.xor_eq_zero.mp hv0.2, he]⟩
        · rintro ⟨hv, he⟩
          injection he with h1 h2
          subst h1
          subst hv
          simp [Nat.xor_self]
          exact h2
  intro a b
  unfold TokenEqual ConstantTimeCompareRun
  by_cases hlen : a.length = b.length
  · rw [if_neg (by omega)]
    dsimp only
    by_cases hz : (ctLoop a b 0).1 = 0
    · rw [if_pos hz]
      simp only [beq_self_eq_true, true_iff]
      exact ((hloop a b 0 hlen).mp hz).2
    · rw [if_neg hz]
      simp only [beq_iff_eq]
      constructor
      · omega
      · intro he
        exact absurd ((hloop a b 0 hlen).mpr ⟨rfl, he⟩) hz
  · rw [if_pos (by omega)]
    simp only [beq_iff_eq]
    constructor
    · omega
    · intro he
      subst he
      omega

/-- C4 counterexample: a `HELLO_RESP` status `PORT_FORBIDDEN` is NOT
treated as terminal by `Client.Run` — unlike `AUTH_FAIL` and
`PORT_IN_USE`, it is classified for retry, refuting the claim that the
client treats the three statuses alike as terminal. -/
theorem portForbidden_not_terminal :
    classifyHandshakeError ⟨StatusPortForbidden, ""⟩ = RunDecision.retry ∧
    classifyHandshakeError ⟨StatusAuthFail, ""⟩ = RunDecision.terminal ∧
    classifyHandshakeError ⟨StatusPortInUse, ""⟩ = RunDecision.terminal ∧
    classifyHandshakeError ⟨StatusPortForbidden, ""⟩ ≠ RunDecision.terminal := by
  decide

/-- C4 amended: `Client.Run` treats a handshake error as terminal iff its
status is `AUTH_FAIL` or `PORT_IN_USE`; a `PORT_FORBIDDEN` response is a
transient handshake failure that is retried after the backoff delay. -/
theorem run_terminal_iff (e : HandshakeError) :
    (classifyHandshakeError e = RunDecision.terminal ↔
      (e.status = StatusAuthFail ∨ e.status = StatusPortInUse)) ∧
    (e.status = StatusPortForbidden → classifyHandshakeError e = RunDecision.retry) := by
  constructor
  · unfold classifyHandshakeError IsAuthFail IsPortInUse
    constructor
    · intro h
      by_cases h1 : e.status = StatusAuthFail
      · exact Or.inl h1
      · by_cases h2 : e.status = StatusPortInUse
        · exact Or.inr h2
        · rw [if_neg (by simp [h1]), if_neg (by simp [h2])] at h
          exact absurd h (by simp)
    · intro h
      rcases h with h | h
      · rw [if_pos (by simp [h])]
      · by_cases h1 : e.status = StatusAuthFail
        · rw [if_pos (by simp [h1])]
        · rw [if_neg (by simp [h1]), if_pos (by simp [h])]
  · intro h
    unfold classifyHandshakeError IsAuthFail IsPortInUse
    rw [if_neg (by simp [h, StatusPortForbidden, StatusAuthFail]),
      if_neg (by simp [h, StatusPortForbidden, StatusPortInUse])]

/-- C4 amended witness: the three concrete statuses classified as the
amended claim states. -/
theorem run_terminal_iff_witness :
    (classifyHandshakeError ⟨StatusPortForbidden, "forbidden"⟩ = RunDecision.terminal ↔
      ((⟨StatusPortForbidden, "forbidden"⟩ : HandshakeError).status = StatusAuthFail ∨
        (⟨StatusPortForbidden, "forbidden"⟩ : HandshakeError).status = StatusPortInUse)) ∧
    classifyHandshakeError ⟨StatusPortForbidden, "forbidden"⟩ = RunDecision.retry :=
  ⟨(run_terminal_iff ⟨StatusPortForbidden, "forbidden"⟩).1,
   (run_terminal_iff ⟨StatusPortForbidden, "forbidden"⟩).2 rfl⟩

/-- C2: for every `Hello`, `HelloResp` and CONNECT_REQ address satisfying
the §3 bounds (magic "RSK1", version 0x01, token 1-255 bytes, 1-16 ports
each in 1-65535, name 0-64 bytes; status a §3 code with 0-16 accepted
ports and 0-255 message bytes; address 1-1024 bytes), the corresponding
Write function succeeds and Read decodes its output back to the original
value, leaving any trailing bytes untouched (`Read ∘ Write = identity`). -/
theorem codec_roundtrip (h : Hello) (resp : HelloResp) (addr : List Nat)
    (r1 r2 r3 : List Nat)
    (hm : h.magic = magicBytes) (hv : h.version = versionByte)
    (ht1 : 1 ≤ h.token.length) (ht2 : h.token.length ≤ 255)
    (hp1 : 1 ≤ h.ports.length) (hp2 : h.ports.length ≤ 16)
    (hpv : ∀ p ∈ h.ports, 1 ≤ p ∧ p ≤ 65535)
    (hn : h.name.length ≤ 64)
    (hrv : resp.version = versionByte) (hrs : resp.status ≤ 5)
    (hrp : resp.acceptedPorts.length ≤ 16)
    (hrpv : ∀ p ∈ resp.acceptedPorts, 1 ≤ p ∧ p ≤ 65535)
    (hrm : resp.message.length ≤ 255)
    (ha1 : 1 ≤ addr.length) (ha2 : addr.length ≤ 1024) :
    (∃ bs, WriteHello h = .ok bs ∧ ReadHello (bs ++ r1) = .ok (h, r1)) ∧
    (∃ bs, WriteHelloResp resp = .ok bs ∧ ReadHelloResp (bs ++ r2) = .ok (resp, r2)) ∧
    (∃ bs, WriteConnectReq addr = .ok bs ∧ ReadConnectReq (bs ++ r3) = .ok (addr, r3)) := by
  refine ⟨?_, ?_, ?_⟩
  · refine ⟨_, WriteHello_ok h hm hv ht1 ht2 hp1 hp2 hn, ?_⟩
    exact ReadHello_WriteHello h r1 hm hv ht1 ht2 hp1 hp2 hn _
      (WriteHello_ok h hm hv ht1 ht2 hp1 hp2 hn)
  · refine ⟨_, WriteHelloResp_ok resp hrv hrp hrm, ?_⟩
    exact ReadHelloResp_WriteHelloResp resp r2 hrv hrp hrm _
      (WriteHelloResp_ok resp hrv hrp hrm)
  · have hw : WriteConnectReq addr =
        .ok (addr.length / 256 :: addr.length % 256 :: addr) := by
      unfold WriteConnectReq
      rw [if_neg (by omega)]
    exact ⟨_, hw, ReadConnectReq_WriteConnectReq addr r3 ha1 ha2 _ hw⟩

/-- C2 witness: a concrete HELLO (token `[9]`, port 20001, name `[110]`),
HELLO_RESP (status OK, one accepted port, message `[111, 107]`) and
CONNECT_REQ address `[104, 58, 56, 48]` all round-trip, with trailing
bytes preserved. -/
theorem codec_roundtrip_witness :
    (∃ bs, WriteHello ⟨magicBytes, 1, [9], [20001], [110]⟩ = .ok bs ∧
      ReadHello (bs ++ [7]) = .ok (⟨magicBytes, 1, [9], [20001], [110]⟩, [7])) ∧
    (∃ bs, WriteHelloResp ⟨1, 0, [20001], [111, 107]⟩ = .ok bs ∧
      ReadHelloResp (bs ++ [8]) = .ok (⟨1, 0, [20001], [111, 107]⟩, [8])) ∧
    (∃ bs, WriteConnectReq [104, 58, 56, 48] = .ok bs ∧
      ReadConnectReq (bs ++ [9]) = .ok ([104, 58, 56, 48], [9])) :=
  codec_roundtrip ⟨magicBytes, 1, [9], [20001], [110]⟩ ⟨1, 0, [20001], [111, 107]⟩
    [104, 58, 56, 48] [7] [8] [9]
    rfl rfl (by decide) (by decide) (by decide) (by decide) (by decide) (by decide)
    rfl (by decide) (by decide) (by decide) (by decide) (by decide) (by decide)
